import Mathlib

/-!
Verification of the AI-SOL frontend's real-time event/state layer.

This file shallowly embeds the client-side state machines of the AI-SOL
React/TypeScript frontend:

* `src/frontend/src/services/websocket.ts` — the WebSocket transport
  (`WebSocketService`: onmessage decode/fallback, bounded reconnect policy)
  and the workflow-event router (`EventHandler`: history, `getHistory`);
* `src/frontend/src/pages/Dashboard.tsx` — the Dashboard reducer
  (the `webSocketService.subscribe` callback handling FILE_GENERATED,
  CONNECTION_STATUS, CHAT_MESSAGE, CHAT_RESPONSE and AWAITING_REVIEW
  envelopes, and the `fetchStatus` poll-merge);
* the `ProgressTimeline` component's per-stage `handleEvent` reducer.

Modelling conventions: timestamps (ISO strings parsed with
`new Date(x).getTime()` in the source) are embedded as their
epoch-millisecond values (`Int`); JavaScript objects produced by
`JSON.parse` are embedded as the inductive `JsonVal`; React `useState`
updates are embedded as pure state-transition functions; TypeScript
string-literal unions are embedded as `String` except where their values
drive control flow (`Role`, `StageStatus`).
-/

/-- A JSON value, the result of a successful `JSON.parse` on an inbound
WebSocket frame. -/
inductive JsonVal where
  | null
  | boolVal (b : Bool)
  | num (n : Int)
  | str (s : String)
  | arr (xs : List JsonVal)
  | obj (fields : List (String × JsonVal))

/-- Association-list lookup over the fields of a JSON object
(first binding wins, as in a JavaScript object literal). -/
def lookupField : List (String × JsonVal) → String → Option JsonVal
  | [], _ => none
  | (k, v) :: rest, key => if k = key then some v else lookupField rest key

/-- Property access `j[k]` on a JSON value (`none` when `j` is not an
object or lacks the field). -/
def getField : JsonVal → String → Option JsonVal
  | .obj fields, k => lookupField fields k
  | _, _ => none

/-- The string value of field `k` of `j`, when present. -/
def strField (j : JsonVal) (k : String) : Option String :=
  match getField j k with
  | some (.str s) => some s
  | _ => none

/-- The `type` tags of the recognized envelope variants of the
`WebSocketMessage` union in `websocket.ts`. -/
def recognizedTypes : List String :=
  ["LOG", "FILE_GENERATED", "CHAT_MESSAGE", "CHAT_RESPONSE",
   "AWAITING_REVIEW", "STATUS_UPDATE", "CONNECTION_STATUS", "workflow_event"]

/-- Whether a parsed frame carries the `type` tag of a recognized envelope
variant. -/
def recognizedEnvelope (j : JsonVal) : Bool :=
  match strField j "type" with
  | some t => recognizedTypes.contains t
  | none => false

/-- The synthetic `LogMessage` object built in the `catch` arm of the
`onmessage` handler in `websocket.ts` (fields in source order). -/
def fallbackLog (raw now : String) : JsonVal :=
  .obj [("type", .str "LOG"), ("level", .str "info"), ("message", .str raw),
        ("agent", .str "SYSTEM"), ("timestamp", .str now)]

/-- Whether a delivered value is the synthetic LOG shape
(`type = "LOG"`, `level = "info"`, `agent = "SYSTEM"`). -/
def isSyntheticLog (j : JsonVal) : Bool :=
  strField j "type" == some "LOG" && strField j "level" == some "info"
    && strField j "agent" == some "SYSTEM"

/-- The value the `onmessage` handler of `WebSocketService._connect`
delivers to every subscriber: `raw` is the frame text, `now` the current
time, and `parsed` the outcome of `JSON.parse raw` (`none` when the parse
threw). A successful parse is delivered as-is; a parse failure is caught
and replaced by the synthetic fallback LOG. -/
def onMessage (raw now : String) (parsed : Option JsonVal) : JsonVal :=
  match parsed with
  | some data => data
  | none => fallbackLog raw now

/-- The reconnect-relevant state of `WebSocketService`. -/
structure WSRetryState where
  reconnectAttempts : Nat

/-- `reconnectInterval` field of `WebSocketService` (milliseconds). -/
def reconnectInterval : Nat := 3000

/-- `maxReconnectAttempts` field of `WebSocketService`. -/
def maxReconnectAttempts : Nat := 10

/-- `WebSocketService._reconnect`: below the cap it increments the
attempt counter and schedules `_connect` after `reconnectInterval`
milliseconds (the returned delay); at the cap it only logs and schedules
nothing (`none`). -/
def wsReconnect (s : WSRetryState) : WSRetryState × Option Nat :=
  if s.reconnectAttempts < maxReconnectAttempts then
    ({ reconnectAttempts := s.reconnectAttempts + 1 }, some reconnectInterval)
  else
    (s, none)

/-- The `onopen` handler: resets `reconnectAttempts` to zero. -/
def wsOnOpen (_ : WSRetryState) : WSRetryState :=
  { reconnectAttempts := 0 }

/-- `WebSocketService.connect`: also resets the attempt counter. -/
def wsConnect (_ : WSRetryState) : WSRetryState :=
  { reconnectAttempts := 0 }

/-- `k` consecutive failed connection cycles: each cycle runs `onclose`,
whose `_reconnect` call updates the counter (and, below the cap,
schedules the next attempt). -/
def failCycles : Nat → WSRetryState → WSRetryState
  | 0, s => s
  | k + 1, s => failCycles k (wsReconnect s).1

/-- A workflow event as defined in `event_handler.ts`
(`WorkflowEvent` interface); `severity` is one of the literal strings
`debug .. critical` when present. -/
structure WorkflowEvent where
  event_type : String
  timestamp : Int
  project_id : String
  stage : Option String
  agent : Option String
  message : String
  data : Option JsonVal
  severity : Option String
  progress_percentage : Option Int

/-- The state of the `EventHandler` router that its history queries
read (`listeners` hold callbacks, which are side-effecting and do not
influence the retained history). -/
structure EventHandlerState where
  eventHistory : List WorkflowEvent

/-- A fresh `EventHandler` (empty history). -/
def ehInit : EventHandlerState := ⟨[]⟩

/-- `EventHandler.handleEvent`: pushes the event onto `eventHistory`
(then notifies type-specific and wildcard listeners, which does not
change the state). -/
def ehHandleEvent (s : EventHandlerState) (e : WorkflowEvent) : EventHandlerState :=
  { s with eventHistory := s.eventHistory ++ [e] }

/-- `EventHandler.clearHistory`. -/
def ehClearHistory (_ : EventHandlerState) : EventHandlerState := ⟨[]⟩

/-- `EventHandler.getHistory(eventType?, limit?)`: filters by
`event_type` when `eventType` is a truthy string (an empty string is
falsy in JavaScript and disables the filter, like omitting it), then
takes the tail slice `filtered.slice(-limit)` when `limit` is truthy
(a `limit` of `0` is falsy and returns the whole filtered list). -/
def ehGetHistory (s : EventHandlerState) (eventType : Option String)
    (limit : Option Nat) : List WorkflowEvent :=
  let filtered :=
    match eventType with
    | some t => if t = "" then s.eventHistory
                else s.eventHistory.filter (fun e => e.event_type == t)
    | none => s.eventHistory
  match limit with
  | some n => if n = 0 then filtered else filtered.drop (filtered.length - n)
  | none => filtered

/-- Stage status lifecycle of `ProgressTimeline`'s `StageInfo`. -/
inductive StageStatus where
  | pending
  | running
  | completed
  | failed
deriving DecidableEq

/-- `StageInfo` of `ProgressTimeline.tsx` (fields in source order). -/
structure StageInfo where
  name : String
  status : StageStatus
  agent : Option String
  startTime : Option Int
  endTime : Option Int
  message : Option String
  events : List WorkflowEvent
  expanded : Bool

/-- The fixed `STAGES` list of `ProgressTimeline.tsx`. -/
def STAGES : List String :=
  ["requirements", "architecture", "developer", "qa", "devops"]

/-- One freshly initialized stage entry. -/
def initialStageInfo (name : String) : StageInfo :=
  ⟨name, .pending, none, none, none, none, [], false⟩

/-- The initial `stages` record of `ProgressTimeline`: one pending entry
per stage of `STAGES`, nothing else. -/
def initialStages : String → Option StageInfo := fun name =>
  if STAGES.contains name then some (initialStageInfo name) else none

/-- The per-stage update applied by `ProgressTimeline`'s `handleEvent`
once the event passed the project and stage guards: the event is pushed
onto the stage's event list, then the status/timestamps/agent/message
are updated according to `event_type`. -/
def applyStageEvent (info : StageInfo) (e : WorkflowEvent) : StageInfo :=
  let info1 := { info with events := info.events ++ [e] }
  if e.event_type = "stage_started" then
    { info1 with status := .running, startTime := some e.timestamp,
                 agent := e.agent, message := some e.message }
  else if e.event_type = "stage_completed" then
    { info1 with status := .completed, endTime := some e.timestamp,
                 message := some e.message }
  else if e.event_type = "stage_failed" then
    { info1 with status := .failed, endTime := some e.timestamp,
                 message := some e.message }
  else if e.event_type = "agent_thinking" then
    { info1 with message := some e.message }
  else info1

/-- `ProgressTimeline`'s `handleEvent` wildcard callback: drops events
whose `project_id` is not the active project, drops events without a
truthy `stage` field or whose stage is not in the record, and otherwise
updates exactly that stage's entry. -/
def ptHandleEvent (projectId : String) (stages : String → Option StageInfo)
    (e : WorkflowEvent) : String → Option StageInfo :=
  if e.project_id = projectId then
    match e.stage with
    | some st =>
      if st = "" then stages
      else
        match stages st with
        | some info => fun k => if k = st then some (applyStageEvent info e) else stages k
        | none => stages
    | none => stages
  else stages

/-- Chat author role (`'user' | 'ai'` in `Dashboard.tsx`). -/
inductive Role where
  | user
  | ai
deriving DecidableEq

/-- `ChatMessage` of `Dashboard.tsx`. -/
structure ChatMsg where
  role : Role
  content : String
  timestamp : Int
deriving DecidableEq

/-- `FileGeneratedMessage` payload of `websocket.ts` (sans the `type`
tag); `content` is the preview, `full_content` the full file. -/
structure FileRec where
  doc_type : String
  filename : String
  path : String
  content : String
  full_content : String
  auto_focus : Bool
  timestamp : Int
deriving DecidableEq

/-- `ActionButton` of `websocket.ts` (`variant` is one of the literal
strings `primary`/`secondary`). -/
structure ActionButton where
  label : String
  action : String
  variant : String
deriving DecidableEq

/-- `ProjectStatus` snapshot returned by `GET /projects/id/status`. -/
structure ProjectStatus where
  status : String
  current_step : String
  steps_completed : List String
  generated_files : List FileRec
deriving DecidableEq

/-- The `WebSocketMessage` tagged union of `websocket.ts`. -/
inductive WebSocketMessage where
  | log (level message agent : String) (timestamp : Int)
  | fileGenerated (file : FileRec)
  | chatMessage (role : Role) (content : String) (timestamp : Int)
  | chatResponse (message : String) (action : Option String)
      (buttons : List ActionButton) (timestamp : Int)
  | awaitingReview (stage prompt : String) (files : List String) (timestamp : Int)
  | statusUpdate (status : String) (timestamp : Int)
  | connectionStatus (connected : Bool) (timestamp : Int)
  | workflowEvent (event : WorkflowEvent)

/-- The Dashboard reducer state (the `useState` pieces that the
subscribe callback and the polling loop read and write). -/
structure DashState where
  status : Option ProjectStatus
  files : List FileRec
  chatMessages : List ChatMsg
  selectedFile : Option FileRec
  isChatLoading : Bool
  isConnected : Bool
  awaitingReview : Bool
  retryCount : Nat

/-- The Dashboard's initial state (no cached localStorage entries). -/
def dashInit : DashState := ⟨none, [], [], none, false, false, false, 0⟩

/-- The `setFiles` updater of the FILE_GENERATED branch in
`Dashboard.tsx`: `findIndex(f => f.filename === message.filename)`,
replace in place on a hit, else append. The upsert key is `filename`. -/
def upsertFile : List FileRec → FileRec → List FileRec
  | [], m => [m]
  | f :: fs, m => if f.filename = m.filename then m :: fs else f :: upsertFile fs m

/-- The `setFiles` updater of `fetchStatus` in `Dashboard.tsx`: each
server file is appended only when no accumulated entry already has its
`path`; existing entries are never modified. -/
def mergeGeneratedFiles (fs serverFiles : List FileRec) : List FileRec :=
  serverFiles.foldl
    (fun acc sf => if acc.any (fun f => f.path == sf.path) then acc else acc ++ [sf])
    fs

/-- The `webSocketService.subscribe` callback of `Dashboard.tsx` as a
state-transition function. Envelope kinds without a branch (LOG,
STATUS_UPDATE, workflow_event) leave the Dashboard state unchanged. -/
def dashboardOnMessage (s : DashState) (m : WebSocketMessage) : DashState :=
  match m with
  | .fileGenerated f =>
    let s1 := { s with files := upsertFile s.files f }
    if f.auto_focus then { s1 with selectedFile := some f } else s1
  | .connectionStatus c _ => { s with isConnected := c }
  | .chatMessage r c t =>
    if s.chatMessages.any (fun mm =>
        mm.role == r && mm.content == c && decide ((mm.timestamp - t).natAbs < 2000)) then
      s
    else
      { s with chatMessages := s.chatMessages ++ [⟨r, c, t⟩] }
  | .chatResponse msg _ _ t =>
    let s1 := { s with isChatLoading := false }
    if s1.chatMessages.any (fun mm =>
        mm.role == Role.ai && mm.content == msg && decide ((mm.timestamp - t).natAbs < 2000)) then
      s1
    else
      { s1 with chatMessages := s1.chatMessages ++ [⟨Role.ai, msg, t⟩] }
  | .awaitingReview _ _ _ _ =>
    let s1 := { s with awaitingReview := true }
    if 0 < s1.files.length ∧ s1.selectedFile = none then
      { s1 with selectedFile := s1.files.getLast? }
    else s1
  | _ => s

/-- The success path of `fetchStatus` in `Dashboard.tsx`: store the
snapshot, reset the poll retry counter, and (when the snapshot lists
generated files) merge them into the file list by path. -/
def fetchStatusSuccess (s : DashState) (data : ProjectStatus) : DashState :=
  let s1 := { s with status := some data, retryCount := 0 }
  if 0 < data.generated_files.length then
    { s1 with files := mergeGeneratedFiles s1.files data.generated_files }
  else s1

/-- An update to the Dashboard's file list: either a live FILE_GENERATED
envelope (handled by `dashboardOnMessage`) or the `generated_files` of a
successful poll (handled by `fetchStatusSuccess`). -/
inductive FileOp where
  | ws (m : FileRec)
  | poll (serverFiles : List FileRec)

/-- The effect of one `FileOp` on the file list (the `files`-component
of `dashboardOnMessage` and `fetchStatusSuccess` respectively). -/
def fileStep (fs : List FileRec) : FileOp → List FileRec
  | .ws m => upsertFile fs m
  | .poll sfs => mergeGeneratedFiles fs sfs

/-- The payload of the last live FILE_GENERATED envelope in `ops`,
starting from a previously seen one (`acc`). -/
def lastGeneratedFrom (acc : Option FileRec) (ops : List FileOp) : Option FileRec :=
  ops.foldl (fun a op => match op with | FileOp.ws m => some m | FileOp.poll _ => a) acc

/-- The payload of the last live FILE_GENERATED envelope in a sequence
of file-list updates, if any. -/
def lastGenerated (ops : List FileOp) : Option FileRec :=
  lastGeneratedFrom none ops

/-- An update sequence is `fname`-clean when every live FILE_GENERATED
envelope in it bears filename `fname` and no poll-provided file does. -/
def opRespects (fname : String) : FileOp → Bool
  | .ws m => m.filename == fname
  | .poll sfs => sfs.all (fun g => !(g.filename == fname))

/-- `d` is a wire delivery of the logical chat message `(r, c)` at
timestamp `t`: either a CHAT_MESSAGE envelope with that role, content
and timestamp, or a CHAT_RESPONSE envelope with that content and
timestamp (a CHAT_RESPONSE is always displayed with role `ai`). -/
def deliversChat : WebSocketMessage → Role → String → Int → Prop
  | .chatMessage r c t, r', c', t' => r = r' ∧ c = c' ∧ t = t'
  | .chatResponse msg _ _ t, r', c', t' => r' = Role.ai ∧ msg = c' ∧ t = t'
  | _, _, _, _ => False

/-! ### Helper lemmas -/

lemma failCycles_attempts (k : Nat) : ∀ a : Nat, a ≤ 10 →
    (failCycles k ⟨a⟩).reconnectAttempts = if a + k ≤ 10 then a + k else 10 := by
  induction k with
  | zero =>
    intro a ha
    show a = if a + 0 ≤ 10 then a + 0 else 10
    split <;> omega
  | succ k ih =>
    intro a ha
    show (failCycles k (wsReconnect ⟨a⟩).1).reconnectAttempts = _
    by_cases h : a < 10
    · have h1 : (wsReconnect ⟨a⟩).1 = ⟨a + 1⟩ := by
        simp [wsReconnect, maxReconnectAttempts, h]
      rw [h1, ih (a + 1) (by omega)]
      split_ifs <;> omega
    · have ha10 : a = 10 := by omega
      subst ha10
      have h1 : (wsReconnect ⟨10⟩).1 = ⟨10⟩ := by
        simp [wsReconnect, maxReconnectAttempts]
      rw [h1, ih 10 (by omega)]
      split_ifs <;> omega

/-! ### Claim theorems -/

/-- C3: after exactly 10 consecutive failed connection attempts, each
scheduled at the fixed 3000 ms interval, `_reconnect` schedules no
further attempt; a successful `onopen` resets the attempt counter to 0,
so a later disconnection again gets up to 10 attempts. -/
theorem reconnect_capped_at_ten (s0 : WSRetryState) (k : Nat) :
    (wsOnOpen s0).reconnectAttempts = 0 ∧
    (wsReconnect (failCycles k (wsOnOpen s0))).2 =
      (if k < 10 then some 3000 else none) := by
  refine ⟨rfl, ?_⟩
  have hattempts : (failCycles k (wsOnOpen s0)).reconnectAttempts
      = if 0 + k ≤ 10 then 0 + k else 10 :=
    failCycles_attempts k 0 (by omega)
  have hiff : ((failCycles k (wsOnOpen s0)).reconnectAttempts < maxReconnectAttempts)
      ↔ k < 10 := by
    unfold maxReconnectAttempts
    split_ifs at hattempts <;> omega
  by_cases hk : k < 10
  · rw [if_pos hk]
    unfold wsReconnect
    rw [if_pos (hiff.mpr hk)]
    rfl
  · rw [if_neg hk]
    unfold wsReconnect
    rw [if_neg (fun hcon => hk (hiff.mp hcon))]

/-- C10: `getHistory` called with `limit = 0` returns the entire
filtered history, exactly as if no limit had been given (`0` is falsy in
`limit ? filtered.slice(-limit) : filtered`). -/
theorem getHistory_zero_limit (s : EventHandlerState) (eventType : Option String) :
    ehGetHistory s eventType (some 0) = ehGetHistory s eventType none := rfl

lemma ehFoldl_history (evs : List WorkflowEvent) (s : EventHandlerState) :
    (evs.foldl ehHandleEvent s).eventHistory = s.eventHistory ++ evs := by
  induction evs generalizing s with
  | nil => simp
  | cons e evs ih =>
    rw [List.foldl_cons, ih]
    simp [ehHandleEvent]

lemma filter_replicate_true {α : Type} (p : α → Bool) (a : α) (n : Nat)
    (hp : p a = true) :
    (List.replicate n a).filter p = List.replicate n a := by
  induction n with
  | zero => rfl
  | succ n ih => simp [List.replicate_succ, List.filter_cons, hp, ih]

/-- A concrete `stage_started` event used as a counterexample input. -/
def evStageStarted : WorkflowEvent :=
  ⟨"stage_started", 0, "p", none, none, "", none, none, none⟩

/-- C9 counterexample: the claim "there exists a fixed bound N such that
the retained history queryable through getHistory never exceeds N entries
per event type" is false: `handleEvent` pushes every event onto
`eventHistory` with no eviction, so for every candidate bound N, feeding
N+1 events of one type makes `getHistory` return N+1 entries. -/
theorem history_unbounded_cex :
    ¬ ∃ N : Nat, ∀ (evs : List WorkflowEvent) (t : String),
        (ehGetHistory (evs.foldl ehHandleEvent ehInit) (some t) none).length ≤ N := by
  rintro ⟨N, h⟩
  have hbound := h (List.replicate (N + 1) evStageStarted) "stage_started"
  have hist : ((List.replicate (N + 1) evStageStarted).foldl ehHandleEvent ehInit).eventHistory
      = List.replicate (N + 1) evStageStarted := by
    rw [ehFoldl_history]
    rfl
  have hget : ehGetHistory ((List.replicate (N + 1) evStageStarted).foldl ehHandleEvent ehInit)
      (some "stage_started") none = List.replicate (N + 1) evStageStarted := by
    show ((List.replicate (N + 1) evStageStarted).foldl ehHandleEvent ehInit).eventHistory.filter
        (fun e => e.event_type == "stage_started") = _
    rw [hist, filter_replicate_true _ _ _ rfl]
  rw [hget, List.length_replicate] at hbound
  omega

/-- C9 (amended): the event router's history is unbounded and
append-only: after processing any sequence of events from a fresh
router, the retained history is exactly that sequence, and `getHistory`
for an event type returns all retained events of that type (all events,
for an absent or empty type filter); no fixed bound exists (see the
counterexample). -/
theorem history_append_only (evs : List WorkflowEvent) (t : String) :
    (evs.foldl ehHandleEvent ehInit).eventHistory = evs ∧
    ehGetHistory (evs.foldl ehHandleEvent ehInit) none none = evs ∧
    ehGetHistory (evs.foldl ehHandleEvent ehInit) (some t) none
      = (if t = "" then evs else evs.filter (fun e => e.event_type == t)) := by
  have hist : (evs.foldl ehHandleEvent ehInit).eventHistory = evs := by
    rw [ehFoldl_history]
    rfl
  refine ⟨hist, hist, ?_⟩
  show (if t = "" then (evs.foldl ehHandleEvent ehInit).eventHistory
      else (evs.foldl ehHandleEvent ehInit).eventHistory.filter (fun e => e.event_type == t)) = _
  rw [hist]

/-- C5 counterexample: a frame that is valid JSON but matches no
recognized envelope variant (here an object with type tag "BANANA") is
delivered to subscribers unchanged, not coerced into a synthetic LOG
entry; only frames whose `JSON.parse` throws are coerced. -/
theorem unrecognized_json_not_coerced_cex :
    recognizedEnvelope (JsonVal.obj [("type", JsonVal.str "BANANA")]) = false ∧
    onMessage "\x7b\"type\":\"BANANA\"\x7d" "2026-01-01T00:00:00.000Z"
        (some (JsonVal.obj [("type", JsonVal.str "BANANA")]))
      = JsonVal.obj [("type", JsonVal.str "BANANA")] ∧
    isSyntheticLog (onMessage "\x7b\"type\":\"BANANA\"\x7d" "2026-01-01T00:00:00.000Z"
        (some (JsonVal.obj [("type", JsonVal.str "BANANA")]))) = false :=
  ⟨rfl, rfl, rfl⟩

/-- C5 (amended): every inbound frame whose `JSON.parse` throws is
delivered to subscribers as a synthetic LOG envelope with level "info"
and agent "SYSTEM" carrying the raw frame text, and the handler is a
total function (the exception is caught; the frame is never dropped); a
frame that parses as JSON is delivered as-is, whether or not it is a
recognized envelope variant. -/
theorem parse_failure_coerced_to_log (raw now : String) :
    onMessage raw now none = fallbackLog raw now ∧
    isSyntheticLog (fallbackLog raw now) = true ∧
    strField (fallbackLog raw now) "message" = some raw ∧
    (∀ j : JsonVal, onMessage raw now (some j) = j) :=
  ⟨rfl, rfl, rfl, fun _ => rfl⟩

lemma applyStageEvent_pending (info : StageInfo) (e : WorkflowEvent)
    (h : (applyStageEvent info e).status = StageStatus.pending) :
    info.status = StageStatus.pending := by
  unfold applyStageEvent at h
  split_ifs at h <;> simp_all

/-- C4: no event ever moves a stage's status (back) to `pending`: if a
stage is `pending` after `ProgressTimeline`'s `handleEvent` processes an
event, it was already `pending` before. Every status-writing branch of
the handler assigns `running`, `completed` or `failed`, and no branch
assigns `pending`, so a completed or failed stage can never revert to
`pending`. -/
theorem stage_never_reverts_to_pending
    (pid : String) (stages : String → Option StageInfo) (e : WorkflowEvent)
    (st : String) (info' : StageInfo)
    (hres : ptHandleEvent pid stages e st = some info')
    (hpend : info'.status = StageStatus.pending) :
    ∃ info, stages st = some info ∧ info.status = StageStatus.pending := by
  by_cases hp : e.project_id = pid
  · cases hstage : e.stage with
    | none =>
      simp only [ptHandleEvent, hp, hstage, if_true, eq_self_iff_true] at hres
      exact ⟨info', hres, hpend⟩
    | some stg =>
      by_cases hempty : stg = ""
      · simp only [ptHandleEvent, hp, hstage, hempty, if_true, eq_self_iff_true] at hres
        exact ⟨info', hres, hpend⟩
      · cases hlook : stages stg with
        | none =>
          simp only [ptHandleEvent, hp, hstage, hempty, hlook, if_true, if_false,
            eq_self_iff_true, iff_false] at hres
          exact ⟨info', hres, hpend⟩
        | some info =>
          by_cases hk : st = stg
          · subst hk
            simp only [ptHandleEvent, hp, hstage, hempty, hlook, if_true, if_false,
              eq_self_iff_true, iff_false, Option.some.injEq] at hres
            exact ⟨info, hlook, applyStageEvent_pending info e (hres ▸ hpend)⟩
          · simp only [ptHandleEvent, hp, hstage, hempty, hlook, hk, if_true, if_false,
              eq_self_iff_true, iff_false] at hres
            exact ⟨info', hres, hpend⟩
  · simp only [ptHandleEvent, hp, if_false, iff_false] at hres
    exact ⟨info', hres, hpend⟩

/-- C4 witness: a concrete run. An `agent_thinking` event for the
`requirements` stage of the active project leaves the stage `pending`,
and indeed the stage was `pending` before. -/
theorem stage_never_reverts_to_pending_witness :
    ∃ info, initialStages "requirements" = some info ∧
      info.status = StageStatus.pending :=
  stage_never_reverts_to_pending "p1" initialStages
    ⟨"agent_thinking", 0, "p1", some "requirements", none, "thinking", none, none, none⟩
    "requirements"
    (applyStageEvent (initialStageInfo "requirements")
      ⟨"agent_thinking", 0, "p1", some "requirements", none, "thinking", none, none, none⟩)
    (by rfl) (by rfl)

/-- C8: an inbound event whose project id differs from the currently
active project leaves the displayed state unchanged. `ProgressTimeline`'s
`handleEvent` callback guards explicitly on `event.project_id`; in the
Dashboard's subscribe callback the only envelope kind that carries a
project id is the `workflow_event` wrapper, and the Dashboard callback
leaves its state unchanged on every such envelope (regardless of project
id), so no foreign-project event can mutate the current project's
state. -/
theorem foreign_project_event_is_noop :
    (∀ (pid : String) (stages : String → Option StageInfo) (e : WorkflowEvent),
        e.project_id ≠ pid → ptHandleEvent pid stages e = stages) ∧
    (∀ (s : DashState) (ev : WorkflowEvent),
        dashboardOnMessage s (WebSocketMessage.workflowEvent ev) = s) := by
  constructor
  · intro pid stages e h
    unfold ptHandleEvent
    rw [if_neg h]
  · intro s ev
    rfl

/-- C8 witness: a concrete foreign-project event (project "p2" while
"p1" is active) leaves the initial stage record unchanged. -/
theorem foreign_project_event_is_noop_witness :
    ptHandleEvent "p1" initialStages
      ⟨"stage_started", 0, "p2", some "requirements", none, "m", none, none, none⟩
      = initialStages :=
  foreign_project_event_is_noop.1 "p1" initialStages
    ⟨"stage_started", 0, "p2", some "requirements", none, "m", none, none, none⟩
    (by decide)

lemma mergeGeneratedFiles_nil (fs : List FileRec) :
    mergeGeneratedFiles fs [] = fs := rfl

lemma mergeGeneratedFiles_cons (fs : List FileRec) (sf : FileRec) (sfs : List FileRec) :
    mergeGeneratedFiles fs (sf :: sfs)
      = mergeGeneratedFiles
          (if fs.any (fun f => f.path == sf.path) then fs else fs ++ [sf]) sfs := rfl

lemma lastGeneratedFrom_cons (acc : Option FileRec) (op : FileOp) (ops : List FileOp) :
    lastGeneratedFrom acc (op :: ops)
      = lastGeneratedFrom
          (match op with | FileOp.ws m => some m | FileOp.poll _ => acc) ops := rfl

lemma upsertFile_filter (fs : List FileRec) (m : FileRec) (acc : Option FileRec)
    (h : fs.filter (fun f => f.filename == m.filename) = acc.toList) :
    (upsertFile fs m).filter (fun f => f.filename == m.filename) = [m] := by
  induction fs generalizing acc with
  | nil => simp [upsertFile]
  | cons f fs ih =>
    by_cases hf : f.filename = m.filename
    · have hfc : (f :: fs).filter (fun f => f.filename == m.filename)
          = f :: fs.filter (fun f => f.filename == m.filename) := by
        simp [List.filter_cons, hf]
      rw [hfc] at h
      cases acc with
      | none => simp at h
      | some x =>
        simp only [Option.toList] at h
        injection h with h1 h2
        simp only [upsertFile, if_pos hf]
        simp [List.filter_cons, h2]
    · have hfc : (f :: fs).filter (fun f => f.filename == m.filename)
          = fs.filter (fun f => f.filename == m.filename) := by
        simp [List.filter_cons, hf]
      rw [hfc] at h
      simp only [upsertFile, if_neg hf]
      simp [List.filter_cons, hf, ih acc h]

lemma mergeGenerated_filter_eq (fname : String) :
    ∀ (sfs fs : List FileRec),
      sfs.all (fun g => !(g.filename == fname)) = true →
      (mergeGeneratedFiles fs sfs).filter (fun f => f.filename == fname)
        = fs.filter (fun f => f.filename == fname) := by
  intro sfs
  induction sfs with
  | nil => intro fs _; rfl
  | cons sf sfs ih =>
    intro fs hall
    simp only [List.all_cons, Bool.and_eq_true] at hall
    obtain ⟨hsf, hrest⟩ := hall
    have hsff : (sf.filename == fname) = false := by
      cases hb : sf.filename == fname with
      | false => rfl
      | true => rw [hb] at hsf; simp at hsf
    rw [mergeGeneratedFiles_cons]
    by_cases hany : fs.any (fun f => f.path == sf.path) = true
    · rw [if_pos hany]
      exact ih fs hrest
    · rw [if_neg hany, ih (fs ++ [sf]) hrest, List.filter_append]
      simp [List.filter_cons, hsff]

lemma foldl_fileStep_filter (fname : String) :
    ∀ (ops : List FileOp) (fs : List FileRec) (acc : Option FileRec),
      ops.all (opRespects fname) = true →
      fs.filter (fun f => f.filename == fname) = acc.toList →
      (ops.foldl fileStep fs).filter (fun f => f.filename == fname)
        = (lastGeneratedFrom acc ops).toList := by
  intro ops
  induction ops with
  | nil =>
    intro fs acc _ h
    simpa [lastGeneratedFrom] using h
  | cons op ops ih =>
    intro fs acc hall h
    simp only [List.all_cons, Bool.and_eq_true] at hall
    obtain ⟨hop, hrest⟩ := hall
    rw [List.foldl_cons, lastGeneratedFrom_cons]
    cases op with
    | ws m =>
      have hm : m.filename = fname := by simpa [opRespects] using hop
      subst hm
      exact ih (upsertFile fs m) (some m) hrest (upsertFile_filter fs m acc h)
    | poll sfs =>
      have hsfs : sfs.all (fun g => !(g.filename == fname)) = true := by
        simpa [opRespects] using hop
      refine ih (mergeGeneratedFiles fs sfs) acc hrest ?_
      rw [mergeGenerated_filter_eq fname sfs fs hsfs]
      exact h

/-- C1 counterexample: the Dashboard's FILE_GENERATED branch upserts by
`filename`, not by `path`. Two FILE_GENERATED events sharing the path
"docs/a.md" but carrying different filenames both end up in the file
list, so the list holds two entries for that path, refuting "exactly one
entry per path" even without any poll interleaving. -/
theorem fileGenerated_path_dedup_cex :
    ((dashboardOnMessage
        (dashboardOnMessage dashInit
          (WebSocketMessage.fileGenerated ⟨"md", "a1", "docs/a.md", "c1", "f1", false, 0⟩))
        (WebSocketMessage.fileGenerated ⟨"md", "a2", "docs/a.md", "c2", "f2", false, 0⟩)).files.filter
      (fun f => f.path == "docs/a.md")).length = 2 := by
  decide

/-- C1 (amended): the reducer upserts FILE_GENERATED events by
`filename` rather than path. For every sequence of FILE_GENERATED events
sharing one filename, interleaved arbitrarily with poll-derived merges
none of whose snapshot files bears that filename, the resulting file
list contains exactly one entry with that filename, and that entry is
the full record of the last FILE_GENERATED event processed (the
`Option.toList` of the last live payload: one entry when at least one
FILE_GENERATED event occurs, none otherwise). -/
theorem fileGenerated_upsert_by_filename
    (ops : List FileOp) (fname : String) (fs0 : List FileRec)
    (hops : ops.all (opRespects fname) = true)
    (h0 : fs0.filter (fun f => f.filename == fname) = []) :
    (ops.foldl fileStep fs0).filter (fun f => f.filename == fname)
      = (lastGenerated ops).toList := by
  have h := foldl_fileStep_filter fname ops fs0 none hops (by simpa using h0)
  simpa [lastGenerated] using h

/-- C1 witness: a concrete run — FILE_GENERATED for "a.md", a poll merge
providing "b.md", then a second FILE_GENERATED for "a.md"; the file list
keeps exactly the last "a.md" record. -/
theorem fileGenerated_upsert_by_filename_witness :
    ([FileOp.ws ⟨"md", "a.md", "docs/a.md", "c1", "f1", false, 0⟩,
      FileOp.poll [⟨"md", "b.md", "docs/b.md", "c3", "f3", false, 0⟩],
      FileOp.ws ⟨"md", "a.md", "docs/a.md", "c2", "f2", false, 5⟩].all
        (opRespects "a.md") = true) ∧
    (([FileOp.ws ⟨"md", "a.md", "docs/a.md", "c1", "f1", false, 0⟩,
       FileOp.poll [⟨"md", "b.md", "docs/b.md", "c3", "f3", false, 0⟩],
       FileOp.ws ⟨"md", "a.md", "docs/a.md", "c2", "f2", false, 5⟩].foldl fileStep []).filter
        (fun f => f.filename == "a.md")
      = (lastGenerated
          [FileOp.ws ⟨"md", "a.md", "docs/a.md", "c1", "f1", false, 0⟩,
           FileOp.poll [⟨"md", "b.md", "docs/b.md", "c3", "f3", false, 0⟩],
           FileOp.ws ⟨"md", "a.md", "docs/a.md", "c2", "f2", false, 5⟩]).toList) :=
  ⟨by decide,
   fileGenerated_upsert_by_filename _ "a.md" [] (by decide) (by decide)⟩

lemma mergeGeneratedFiles_spec : ∀ (sfs fs : List FileRec),
    ∃ extra, mergeGeneratedFiles fs sfs = fs ++ extra ∧
      ∀ g ∈ extra, g ∈ sfs ∧ fs.all (fun f => !(f.path == g.path)) = true := by
  intro sfs
  induction sfs with
  | nil => intro fs; exact ⟨[], by simp [mergeGeneratedFiles_nil], by simp⟩
  | cons sf sfs ih =>
    intro fs
    rw [mergeGeneratedFiles_cons]
    by_cases hany : fs.any (fun f => f.path == sf.path) = true
    · rw [if_pos hany]
      obtain ⟨extra, heq, hg⟩ := ih fs
      exact ⟨extra, heq, fun g hgm =>
        ⟨List.mem_cons_of_mem _ (hg g hgm).1, (hg g hgm).2⟩⟩
    · rw [if_neg hany]
      have hanyf : fs.any (fun f => f.path == sf.path) = false := by
        cases hb : fs.any (fun f => f.path == sf.path) with
        | false => rfl
        | true => exact absurd hb hany
      obtain ⟨extra, heq, hg⟩ := ih (fs ++ [sf])
      refine ⟨sf :: extra, by rw [heq]; simp, ?_⟩
      intro g hgm
      rcases List.mem_cons.mp hgm with hgsf | hgex
      · subst hgsf
        refine ⟨List.mem_cons_self _ _, ?_⟩
        simp only [List.any_eq_false] at hanyf
        rw [List.all_eq_true]
        intro f hf
        simpa using hanyf f hf
      · obtain ⟨hmem, hall⟩ := hg g hgex
        refine ⟨List.mem_cons_of_mem _ hmem, ?_⟩
        simp only [List.all_append, Bool.and_eq_true] at hall
        exact hall.1

lemma mergeGeneratedFiles_any_mono (fs sfs : List FileRec) (p : FileRec → Bool)
    (h : fs.any p = true) : (mergeGeneratedFiles fs sfs).any p = true := by
  obtain ⟨extra, heq, -⟩ := mergeGeneratedFiles_spec sfs fs
  rw [heq, List.any_append, h]
  rfl

lemma mergeGeneratedFiles_covers : ∀ (sfs fs : List FileRec) (g : FileRec), g ∈ sfs →
    (mergeGeneratedFiles fs sfs).any (fun f => f.path == g.path) = true := by
  intro sfs
  induction sfs with
  | nil => intro fs g hg; simp at hg
  | cons sf sfs ih =>
    intro fs g hg
    rw [mergeGeneratedFiles_cons]
    rcases List.mem_cons.mp hg with hgsf | hgm
    · subst hgsf
      by_cases hany : fs.any (fun f => f.path == g.path) = true
      · rw [if_pos hany]
        exact mergeGeneratedFiles_any_mono _ _ _ hany
      · rw [if_neg hany]
        apply mergeGeneratedFiles_any_mono
        simp [List.any_append]
    · by_cases hany : fs.any (fun f => f.path == sf.path) = true
      · rw [if_pos hany]
        exact ih fs g hgm
      · rw [if_neg hany]
        exact ih (fs ++ [sf]) g hgm

/-- C7: on a successful status poll, the retry counter is reset to zero,
the existing file list is preserved unchanged as a prefix (in particular
live-streamed file contents are never overwritten), every added entry
comes from the snapshot's `generated_files` and has a path not present
in the prior file list, and every snapshot entry's path is represented
in the merged list. -/
theorem poll_merge_adds_only_new_paths (s : DashState) (data : ProjectStatus) :
    (fetchStatusSuccess s data).retryCount = 0 ∧
    (∃ extra, (fetchStatusSuccess s data).files = s.files ++ extra ∧
      ∀ g ∈ extra, g ∈ data.generated_files ∧
        s.files.all (fun f => !(f.path == g.path)) = true) ∧
    (∀ g ∈ data.generated_files,
      ((fetchStatusSuccess s data).files).any (fun f => f.path == g.path) = true) := by
  by_cases hlen : 0 < data.generated_files.length
  · have hfiles : (fetchStatusSuccess s data).files
        = mergeGeneratedFiles s.files data.generated_files := by
      simp [fetchStatusSuccess, hlen]
    have hretry : (fetchStatusSuccess s data).retryCount = 0 := by
      simp [fetchStatusSuccess, hlen]
    refine ⟨hretry, ?_, ?_⟩
    · obtain ⟨extra, heq, hg⟩ := mergeGeneratedFiles_spec data.generated_files s.files
      exact ⟨extra, by rw [hfiles, heq], hg⟩
    · intro g hgm
      rw [hfiles]
      exact mergeGeneratedFiles_covers data.generated_files s.files g hgm
  · have hnil : data.generated_files = [] := by
      cases hf : data.generated_files with
      | nil => rfl
      | cons a l => rw [hf] at hlen; simp at hlen
    refine ⟨by simp [fetchStatusSuccess, hlen], ⟨[], by simp [fetchStatusSuccess, hlen], by simp⟩, ?_⟩
    intro g hgm
    rw [hnil] at hgm
    simp at hgm

lemma chat_any_dup_false (l : List ChatMsg) (r : Role) (c : String) (t : Int)
    (hfresh : l.all (fun mm => !(mm.role == r && mm.content == c)) = true) :
    l.any (fun mm => mm.role == r && mm.content == c
      && decide ((mm.timestamp - t).natAbs < 2000)) = false := by
  rw [List.any_eq_false]
  intro x hx
  have hnot := List.all_eq_true.mp hfresh x hx
  simp only [Bool.not_eq_true'] at hnot
  simp [hnot]

lemma chatMessage_appends (s : DashState) (r : Role) (c : String) (t : Int)
    (hfresh : s.chatMessages.all (fun mm => !(mm.role == r && mm.content == c)) = true) :
    (dashboardOnMessage s (WebSocketMessage.chatMessage r c t)).chatMessages
      = s.chatMessages ++ [⟨r, c, t⟩] := by
  have hany := chat_any_dup_false s.chatMessages r c t hfresh
  simp [dashboardOnMessage, hany]

lemma chatResponse_appends (s : DashState) (c : String) (act : Option String)
    (btns : List ActionButton) (t : Int)
    (hfresh : s.chatMessages.all
      (fun mm => !(mm.role == Role.ai && mm.content == c)) = true) :
    (dashboardOnMessage s (WebSocketMessage.chatResponse c act btns t)).chatMessages
      = s.chatMessages ++ [⟨Role.ai, c, t⟩] := by
  have hany := chat_any_dup_false s.chatMessages Role.ai c t hfresh
  simp [dashboardOnMessage, hany]

lemma chatMessage_suppressed (s : DashState) (r : Role) (c : String) (t : Int)
    (hdup : s.chatMessages.any (fun mm => mm.role == r && mm.content == c
      && decide ((mm.timestamp - t).natAbs < 2000)) = true) :
    (dashboardOnMessage s (WebSocketMessage.chatMessage r c t)).chatMessages
      = s.chatMessages := by
  simp [dashboardOnMessage, hdup]

lemma chatResponse_suppressed (s : DashState) (c : String) (act : Option String)
    (btns : List ActionButton) (t : Int)
    (hdup : s.chatMessages.any (fun mm => mm.role == Role.ai && mm.content == c
      && decide ((mm.timestamp - t).natAbs < 2000)) = true) :
    (dashboardOnMessage s (WebSocketMessage.chatResponse c act btns t)).chatMessages
      = s.chatMessages := by
  simp [dashboardOnMessage, hdup]

/-- C2: when the same logical chat message (same role, same content)
arrives twice with timestamps less than 2 seconds apart — via any
combination of CHAT_MESSAGE and CHAT_RESPONSE deliveries — a transcript
that did not already contain that (role, content) pair ends up with
exactly one entry for it after both deliveries are processed. -/
theorem chat_cross_channel_dedup (s : DashState) (d1 d2 : WebSocketMessage)
    (r : Role) (c : String) (t1 t2 : Int)
    (h1 : deliversChat d1 r c t1) (h2 : deliversChat d2 r c t2)
    (hclose : (t1 - t2).natAbs < 2000)
    (hfresh : s.chatMessages.all (fun mm => !(mm.role == r && mm.content == c)) = true) :
    ((dashboardOnMessage (dashboardOnMessage s d1) d2).chatMessages.filter
      (fun mm => mm.role == r && mm.content == c)).length = 1 := by
  have step1 : (dashboardOnMessage s d1).chatMessages
      = s.chatMessages ++ [⟨r, c, t1⟩] := by
    cases d1 with
    | chatMessage r' c' t' =>
      obtain ⟨hr, hc, ht⟩ := h1
      rw [hr, hc, ht]
      exact chatMessage_appends s r c t1 hfresh
    | chatResponse msg act btns t' =>
      obtain ⟨hr, hc, ht⟩ := h1
      rw [hc, ht, hr]
      rw [hr] at hfresh
      exact chatResponse_appends s c act btns t1 hfresh
    | log a b cc d => exact absurd h1 (by simp [deliversChat])
    | fileGenerated f => exact absurd h1 (by simp [deliversChat])
    | awaitingReview a b cc d => exact absurd h1 (by simp [deliversChat])
    | statusUpdate a b => exact absurd h1 (by simp [deliversChat])
    | connectionStatus a b => exact absurd h1 (by simp [deliversChat])
    | workflowEvent ev => exact absurd h1 (by simp [deliversChat])
  have hmem : (⟨r, c, t1⟩ : ChatMsg) ∈ (dashboardOnMessage s d1).chatMessages := by
    rw [step1]
    exact List.mem_append_right _ (List.mem_singleton_self _)
  have hfinal : (dashboardOnMessage (dashboardOnMessage s d1) d2).chatMessages
      = s.chatMessages ++ [⟨r, c, t1⟩] := by
    cases d2 with
    | chatMessage r' c' t' =>
      obtain ⟨hr, hc, ht⟩ := h2
      rw [hr, hc, ht]
      have hdup : (dashboardOnMessage s d1).chatMessages.any
          (fun mm => mm.role == r && mm.content == c
            && decide ((mm.timestamp - t2).natAbs < 2000)) = true := by
        rw [List.any_eq_true]
        exact ⟨⟨r, c, t1⟩, hmem, by simp [hclose]⟩
      rw [chatMessage_suppressed _ r c t2 hdup, step1]
    | chatResponse msg act btns t' =>
      obtain ⟨hr, hc, ht⟩ := h2
      rw [hc, ht]
      rw [hr] at hmem
      have hdup : (dashboardOnMessage s d1).chatMessages.any
          (fun mm => mm.role == Role.ai && mm.content == c
            && decide ((mm.timestamp - t2).natAbs < 2000)) = true := by
        rw [List.any_eq_true]
        exact ⟨⟨Role.ai, c, t1⟩, hmem, by simp [hclose]⟩
      rw [chatResponse_suppressed _ c act btns t2 hdup, step1]
    | log a b cc d => exact absurd h2 (by simp [deliversChat])
    | fileGenerated f => exact absurd h2 (by simp [deliversChat])
    | awaitingReview a b cc d => exact absurd h2 (by simp [deliversChat])
    | statusUpdate a b => exact absurd h2 (by simp [deliversChat])
    | connectionStatus a b => exact absurd h2 (by simp [deliversChat])
    | workflowEvent ev => exact absurd h2 (by simp [deliversChat])
  rw [hfinal, List.filter_append]
  have hnil : s.chatMessages.filter (fun mm => mm.role == r && mm.content == c) = [] := by
    rw [List.filter_eq_nil_iff]
    intro x hx
    have hnot := List.all_eq_true.mp hfresh x hx
    simp only [Bool.not_eq_true'] at hnot
    simp [hnot]
  rw [hnil]
  simp [List.filter_cons]

/-- C2 witness: a concrete CHAT_MESSAGE at t=1000 ms followed by a
CHAT_RESPONSE with the same content at t=2500 ms (1.5 s apart) leaves
exactly one "hello" entry in an initially empty transcript. -/
theorem chat_cross_channel_dedup_witness :
    deliversChat (WebSocketMessage.chatMessage Role.ai "hello" 1000) Role.ai "hello" 1000 ∧
    deliversChat (WebSocketMessage.chatResponse "hello" none [] 2500) Role.ai "hello" 2500 ∧
    ((1000 - 2500 : Int).natAbs < 2000) ∧
    ((dashboardOnMessage
        (dashboardOnMessage dashInit (WebSocketMessage.chatMessage Role.ai "hello" 1000))
        (WebSocketMessage.chatResponse "hello" none [] 2500)).chatMessages.filter
      (fun mm => mm.role == Role.ai && mm.content == "hello")).length = 1 :=
  ⟨⟨rfl, rfl, rfl⟩, ⟨rfl, rfl, rfl⟩, by decide,
   chat_cross_channel_dedup dashInit _ _ Role.ai "hello" 1000 2500
     ⟨rfl, rfl, rfl⟩ ⟨rfl, rfl, rfl⟩ (by decide) (by decide)⟩

lemma getLast?_cons_ne_none {α : Type} (x : α) (l : List α) :
    (x :: l).getLast? ≠ none := by
  induction l generalizing x with
  | nil => simp
  | cons y ys ih =>
    rw [List.getLast?_cons_cons]
    exact ih y

/-- C6: processing the same AWAITING_REVIEW envelope twice yields
exactly the state obtained by processing it once: the review-gate flag
is true after either, and the second processing does not change the
selected-file pointer, since a file is auto-selected only when no file
is currently selected. -/
theorem awaitingReview_idempotent (s : DashState) (stg prompt : String)
    (fls : List String) (t : Int) :
    dashboardOnMessage (dashboardOnMessage s
        (WebSocketMessage.awaitingReview stg prompt fls t))
        (WebSocketMessage.awaitingReview stg prompt fls t)
      = dashboardOnMessage s (WebSocketMessage.awaitingReview stg prompt fls t) ∧
    (dashboardOnMessage s (WebSocketMessage.awaitingReview stg prompt fls t)).awaitingReview
      = true := by
  obtain ⟨st, files, chat, sel, load, conn, rev, retry⟩ := s
  by_cases h : 0 < files.length ∧ sel = none
  · obtain ⟨hlen, hsel⟩ := h
    subst hsel
    cases files with
    | nil => simp at hlen
    | cons f fs =>
      refine ⟨?_, by simp [dashboardOnMessage]⟩
      simp [dashboardOnMessage, getLast?_cons_ne_none]
  · exact ⟨by simp [dashboardOnMessage, h], by simp [dashboardOnMessage, h]⟩
